import Mathlib

/-!
Verification of the funnel-aggregation core of the recruitment-dashboard
repository: a shallow embedding of the Sankey flow-graph builder
(`lib/sankeyData.ts`), the dashboard refresh cycle and derived metrics
(`app/page.tsx`), the percentage annotations of `components/SankeyChart.tsx`,
and the `PATCH /api/people/[id]` route handler, together with theorems about
the properties the specification states for them.

JavaScript numbers holding counts are modelled as `Nat` where the source only
ever increments, and as `Int` where the source subtracts; timestamps are
modelled as `Int` (epoch instants); a JS field that may be `undefined` (or
empty, where the source only tests truthiness) is an `Option`.
-/

namespace MetrDash

/-- One applicant record, from the `Person` interface of `lib/sankeyData.ts`
(`id`, `Name`, `Status`, optional `Close Class`) together with the
`Created` timestamp used by `app/page.tsx`.  `Status` and `Created` are
`Option`s because Airtable omits empty fields and the source guards them with
truthiness tests. -/
structure Person where
  id : String
  Name : String
  Status : Option String
  closeClass : Option String
  Created : Option Int
  deriving DecidableEq

/-- One observed status transition, from the `FunnelEvent` interface of
`lib/sankeyData.ts` (`From Status`, `To Status`, `Changed At`). -/
structure FunnelEvent where
  id : String
  fromStatus : String
  toStatus : String
  changedAt : Option Int
  deriving DecidableEq

/-- The `category` union type of `SankeyNode`. -/
inductive NodeCategory where
  | active
  | closed
  | paused
  deriving DecidableEq

/-- A named stage of the visual funnel (`SankeyNode`). -/
structure SankeyNode where
  name : String
  category : NodeCategory
  deriving DecidableEq

/-- A weighted directed edge of the flow graph (`SankeyLink`).  The source
type allows `number | string` endpoints; the builder only ever constructs
string endpoints, so they are embedded as `String`.  The value is `Int`
because `closedInitially` is produced by subtraction. -/
structure SankeyLink where
  source : String
  target : String
  value : Int
  deriving DecidableEq

/-- The flow graph handed to the renderer (`SankeyData`). -/
structure SankeyData where
  nodes : List SankeyNode
  links : List SankeyLink
  deriving DecidableEq

/-- JS truthiness of the `Status` field: `undefined` and `""` are falsy;
`transformLiveDataToSankey` tallies a person only when `if (status)` holds. -/
def truthyStatus (p : Person) : Option String :=
  match p.Status with
  | none => none
  | some s => if s = "" then none else some s

/-- The `statusCounts` tally of `transformLiveDataToSankey`, read at key `s`:
the `forEach` loop increments `statusCounts[status]` once per person whose
truthy `Status` is `status`, so the lookup `statusCounts[s] || 0` equals the
number of people whose truthy status equals `s`. -/
def statusCounts (people : List Person) (s : String) : Nat :=
  people.countP (fun p => truthyStatus p == some s)

/-- Embedding of the filter `p.Status === "Closed"` over the people list. -/
def closedPeopleOf (people : List Person) : List Person :=
  people.filter (fun p => p.Status == some "Closed")

/-- Does `pat` occur at the head of `l`? (helper for the JS
`String.prototype.includes` model). -/
def charsStartWith : List Char → List Char → Bool
  | [], _ => true
  | _ :: _, [] => false
  | a :: as, b :: bs => a == b && charsStartWith as bs

/-- Does `pat` occur contiguously anywhere in `l`? -/
def charsHaveSub (pat : List Char) : List Char → Bool
  | [] => charsStartWith pat []
  | c :: cs => charsStartWith pat (c :: cs) || charsHaveSub pat cs

/-- Model of `s.toLowerCase().includes(pat)` for an already-lowercase literal `pat`. -/
def lowerIncl (s pat : String) : Bool :=
  charsHaveSub pat.data s.toLower.data

/-- The `Close Class` text with the `|| ""` default applied. -/
def closeClassOf (p : Person) : String :=
  p.closeClass.getD ""

/-- First branch of the closure classification:
`closeClass.toLowerCase().includes("after call")`. -/
def isClosedAfterCall (p : Person) : Bool :=
  lowerIncl (closeClassOf p) "after call"

/-- Second branch (the `else if`): not after-call, and
`closeClass.toLowerCase().includes("after onboard")`. -/
def isClosedAfterOnboarding (p : Person) : Bool :=
  !isClosedAfterCall p && lowerIncl (closeClassOf p) "after onboard"

/-- The residual closure bucket: neither substring matches. -/
def isClosedBeforeQualified (p : Person) : Bool :=
  !lowerIncl (closeClassOf p) "after call" && !lowerIncl (closeClassOf p) "after onboard"

/-- The `closedAfterCall` counter accumulated by the `forEach` over `closedPeople`. -/
def closedAfterCallCount (people : List Person) : Nat :=
  (closedPeopleOf people).countP isClosedAfterCall

/-- The `closedAfterOnboarding` counter accumulated by the same loop, with its `else if` guard. -/
def closedAfterOnboardingCount (people : List Person) : Nat :=
  (closedPeopleOf people).countP isClosedAfterOnboarding

/-- Embedding of `closedInitially = closedCount - closedAfterCall - closedAfterOnboarding`
(computed in `Int`, as JS subtraction can in principle go negative). -/
def closedInitially (people : List Person) : Int :=
  (statusCounts people "Closed" : Int)
    - closedAfterCallCount people - closedAfterOnboardingCount people

/-- The nine fixed nodes emitted by `transformLiveDataToSankey`. -/
def sankeyNodes : List SankeyNode :=
  [ ⟨"Applications", .active⟩,
    ⟨"Unassessed", .paused⟩,
    ⟨"Closed/Rejected", .closed⟩,
    ⟨"Qualified", .active⟩,
    ⟨"Waiting on Reply", .paused⟩,
    ⟨"Call Upcoming", .active⟩,
    ⟨"Call Completed", .active⟩,
    ⟨"Onboarded", .active⟩,
    ⟨"Paused", .paused⟩ ]

/-- Embedding of `transformLiveDataToSankey` of `lib/sankeyData.ts`: tally current
statuses, bucket the closed people, derive the fixed-topology link weights,
and drop zero-weight links. -/
def transformLiveDataToSankey (people : List Person) : SankeyData :=
  let unassessedCount := statusCounts people "New"
  let leadCount := statusCounts people "Lead"
  let schedulingCount := statusCounts people "Scheduling Email Sent"
  let callScheduledCount := statusCounts people "Call Scheduled"
  let callCompletedCount := statusCounts people "Call Completed"
  let onboardedCount := statusCounts people "Onboarded"
  let activeCount := statusCounts people "Active"
  let pausedCount := statusCounts people "Paused"
  let closedAfterCall := closedAfterCallCount people
  let closedAfterOnboarding := closedAfterOnboardingCount people
  let totalQualified := leadCount + schedulingCount + callScheduledCount +
    callCompletedCount + onboardedCount + activeCount + pausedCount +
    closedAfterCall + closedAfterOnboarding
  let waitingOnReply := schedulingCount
  let callUpcoming := callScheduledCount
  let completedCalls := callCompletedCount + onboardedCount + activeCount +
    pausedCount + closedAfterCall + closedAfterOnboarding
  let flowToOnboarded := onboardedCount + activeCount
  let flowToPaused := pausedCount
  let flowToClosedFromCall := closedAfterCall + closedAfterOnboarding
  let links : List SankeyLink :=
    [ ⟨"Applications", "Unassessed", (unassessedCount : Int)⟩,
      ⟨"Applications", "Qualified", (totalQualified : Int)⟩,
      ⟨"Applications", "Closed/Rejected", closedInitially people⟩,
      ⟨"Qualified", "Waiting on Reply", (waitingOnReply : Int)⟩,
      ⟨"Qualified", "Call Upcoming", (callUpcoming : Int)⟩,
      ⟨"Qualified", "Call Completed", (completedCalls : Int)⟩,
      ⟨"Call Completed", "Onboarded", (flowToOnboarded : Int)⟩,
      ⟨"Call Completed", "Paused", (flowToPaused : Int)⟩,
      ⟨"Call Completed", "Closed/Rejected", (flowToClosedFromCall : Int)⟩ ]
  { nodes := sankeyNodes, links := links.filter (fun l => 0 < l.value) }

/-- Embedding of `transformEventsToSankey` of `lib/sankeyData.ts`: the `_events` argument
is unused; a missing or empty `people` argument throws
`No data available from Airtable` (embedded as `Except.error`), otherwise
the live data is transformed. -/
def transformEventsToSankey (_events : List FunnelEvent)
    (people : Option (List Person)) : Except String SankeyData :=
  match people with
  | none => .error "No data available from Airtable"
  | some ps =>
    if ps.isEmpty then .error "No data available from Airtable"
    else .ok (transformLiveDataToSankey ps)

/-- Sum of the weights of a list of links. -/
def sumValues (ls : List SankeyLink) : Int :=
  (ls.map SankeyLink.value).sum

/-- Total weight of the returned edges leaving node `n`. -/
def outWeight (d : SankeyData) (n : String) : Int :=
  sumValues (d.links.filter (fun l => l.source == n))

/-- Total weight of the returned edges entering node `n`. -/
def inWeight (d : SankeyData) (n : String) : Int :=
  sumValues (d.links.filter (fun l => l.target == n))

/-- The nine fixed-topology links of `transformLiveDataToSankey` before the
zero-weight filter, with the weights the builder assigns. -/
def rawLinks (people : List Person) : List SankeyLink :=
  [ ⟨"Applications", "Unassessed", (statusCounts people "New" : Int)⟩,
    ⟨"Applications", "Qualified",
      ((statusCounts people "Lead" + statusCounts people "Scheduling Email Sent" +
        statusCounts people "Call Scheduled" + statusCounts people "Call Completed" +
        statusCounts people "Onboarded" + statusCounts people "Active" +
        statusCounts people "Paused" + closedAfterCallCount people +
        closedAfterOnboardingCount people : Nat) : Int)⟩,
    ⟨"Applications", "Closed/Rejected", closedInitially people⟩,
    ⟨"Qualified", "Waiting on Reply", (statusCounts people "Scheduling Email Sent" : Int)⟩,
    ⟨"Qualified", "Call Upcoming", (statusCounts people "Call Scheduled" : Int)⟩,
    ⟨"Qualified", "Call Completed",
      ((statusCounts people "Call Completed" + statusCounts people "Onboarded" +
        statusCounts people "Active" + statusCounts people "Paused" +
        closedAfterCallCount people + closedAfterOnboardingCount people : Nat) : Int)⟩,
    ⟨"Call Completed", "Onboarded",
      ((statusCounts people "Onboarded" + statusCounts people "Active" : Nat) : Int)⟩,
    ⟨"Call Completed", "Paused", (statusCounts people "Paused" : Int)⟩,
    ⟨"Call Completed", "Closed/Rejected",
      ((closedAfterCallCount people + closedAfterOnboardingCount people : Nat) : Int)⟩ ]

/-- Outcome of one collection fetch as seen by the `load` closure of
`app/page.tsx`: the HTTP response was not ok, or the parsed JSON body was the
upstream error shape, or it was the record list. -/
inductive FetchOutcome (α : Type) where
  | httpFail
  | errorBody (msg : String)
  | payload (xs : List α)
  deriving DecidableEq

/-- The pieces of React state the dashboard displays. -/
structure DashState where
  people : List Person
  events : List FunnelEvent
  sankeyData : Option SankeyData
  lastUpdated : Int
  error : Option String
  loading : Bool
  deriving DecidableEq

/-- Embedding of one `load` cycle of `app/page.tsx`.  A non-ok response
throws before any state is set; an upstream error body throws with the first
error message; otherwise `setPeople` and `setEvents` run, then
`transformEventsToSankey` either throws (caught after people and events were
already set) or the remaining state is set from the new snapshot.  `now`
stands for the `new Date()` recorded as the last-updated time. -/
def load (pRes : FetchOutcome Person) (eRes : FetchOutcome FunnelEvent)
    (now : Int) (s : DashState) : DashState :=
  match pRes, eRes with
  | .httpFail, _ =>
    { s with error := some "Failed to fetch data from Airtable", loading := false }
  | _, .httpFail =>
    { s with error := some "Failed to fetch data from Airtable", loading := false }
  | .errorBody m, _ => { s with error := some m, loading := false }
  | _, .errorBody m => { s with error := some m, loading := false }
  | .payload pd, .payload ed =>
    match transformEventsToSankey ed (some pd) with
    | .error msg =>
      { s with people := pd, events := ed, error := some msg, loading := false }
    | .ok sk =>
      { people := pd, events := ed, sankeyData := some sk, lastUpdated := now,
        error := none, loading := false }

/-- The `thisWeekPeople` filter of `app/page.tsx`: people with a truthy
`Created` timestamp on or after the week start.  The week-start instant
itself (`getWeekStart`, real-calendar date arithmetic) is taken as an
abstract parameter. -/
def thisWeekPeople (people : List Person) (weekStart : Int) : List Person :=
  people.filter (fun p =>
    match p.Created with
    | none => false
    | some c => weekStart ≤ c)

/-- The `weeklyApplications` metric: size of this week's cohort. -/
def weeklyApplications (people : List Person) (weekStart : Int) : Nat :=
  (thisWeekPeople people weekStart).length

/-- The `weeklyQualified` metric of `app/page.tsx`: among this week's
cohort, the people whose status is one of the five listed in the source. -/
def weeklyQualified (people : List Person) (weekStart : Int) : Nat :=
  ((thisWeekPeople people weekStart).filter (fun p =>
    p.Status == some "Lead" || p.Status == some "Scheduling Email Sent" ||
    p.Status == some "Call Scheduled" || p.Status == some "Call Completed" ||
    p.Status == some "Onboarded")).length

/-- Modelled from the spec (for comparison with `weeklyQualified`): the
statuses "after the entry and unassessed states".  The spec uses this phrase
for the aggregate that sums Lead, Scheduling Email Sent, Call Scheduled,
Call Completed, Onboarded, Active and Paused (the Closed status is handled
separately through its closure buckets), so those seven statuses are the
spec's post-entry set. -/
def specPostEntryStatuses : List String :=
  ["Lead", "Scheduling Email Sent", "Call Scheduled", "Call Completed",
   "Onboarded", "Active", "Paused"]

/-- Modelled from the spec: the weekly-qualified count the claim describes —
people of this week's cohort whose status is any status after the entry and
unassessed states. -/
def specWeeklyQualified (people : List Person) (weekStart : Int) : Nat :=
  ((thisWeekPeople people weekStart).filter (fun p =>
    specPostEntryStatuses.any (fun s => p.Status == some s))).length

/-- JS `Math.round` on a finite value: round half toward positive infinity. -/
def jsRound (x : ℚ) : ℤ :=
  ⌊x + 1 / 2⌋

/-- The `byStatus` tally of `app/page.tsx` read at key `s` (this reduce has
no truthiness guard; an absent status lands under the key `undefined`, which
never collides with a real status name). -/
def dashStatusCount (people : List Person) (s : String) : Nat :=
  people.countP (fun p => p.Status == some s)

/-- The rejection-rate display:
`total > 0 ? Math.round((closed / total) * 100) : 0`. -/
def rejectionPct (people : List Person) : ℤ :=
  if 0 < people.length then
    jsRound ((dashStatusCount people "Closed" : ℚ) / (people.length : ℚ) * 100)
  else 0

/-- The qualified-don't-onboard display:
`leads > 0 ? Math.round(((leads - onboarded) / leads) * 100) : 0`. -/
def leadsNotOnboardedPct (people : List Person) : ℤ :=
  if 0 < dashStatusCount people "Lead" then
    jsRound (((dashStatusCount people "Lead" : ℚ) - (dashStatusCount people "Onboarded" : ℚ))
      / (dashStatusCount people "Lead" : ℚ) * 100)
  else 0

/-- One closure-reason share:
`closed ? Math.round((count / closed) * 100) : 0`. -/
def closureSharePct (count closedTotal : Nat) : ℤ :=
  if closedTotal ≠ 0 then jsRound ((count : ℚ) / (closedTotal : ℚ) * 100) else 0

/-- Modelled from d3-sankey (the external layout collaborator, out of the
repository): after layout, `node.value` is the larger of the node's total
outgoing and total incoming link weight. -/
def nodeValue (d : SankeyData) (n : String) : Int :=
  max (outWeight d n) (inWeight d n)

/-- The qualification-rate annotation of `components/SankeyChart.tsx`:
`Math.round((qualifiedNode.value / applicationsNode.value) * 100)`, with no
zero-denominator guard.  `none` models the non-finite JS value (NaN or
Infinity) that the division produces when the denominator is zero. -/
def conversionRate (d : SankeyData) : Option ℤ :=
  if nodeValue d "Applications" = 0 then none
  else
    some (jsRound ((nodeValue d "Qualified" : ℚ) / (nodeValue d "Applications" : ℚ) * 100))

/-- A JSON field value of a PATCH body (`string | number | boolean`). -/
inductive FieldValue where
  | str (s : String)
  | num (n : Int)
  | boolean (b : Bool)
  deriving DecidableEq

/-- Response shape of the PATCH route: `NextResponse.json(result)` on
success (`result` is `null` for an empty body), or the error shape with its
HTTP status. -/
inductive PatchResponse where
  | json (result : Option Person)
  | jsonError (msg : String) (status : Nat)
  deriving DecidableEq

/-- The `for (const [fieldName, value] of updates)` loop of
`app/api/people/[id]/route.ts`: one single-field update per pair, in body
order, `result` overwritten by each `updatePersonField` return value; a
thrown update aborts the loop (updates already applied to the upstream store
keep their effect).  The upstream store and its single-field update are
abstract (`Store`, `upd`): they live in the external Airtable client. -/
def patchLoop {Store : Type}
    (upd : Store → String → String → FieldValue → Except String (Person × Store))
    (id : String) :
    List (String × FieldValue) → Store → Option Person →
      Except String (Option Person) × Store
  | [], st, result => (.ok result, st)
  | (f, v) :: rest, st, _ =>
    match upd st id f v with
    | .error e => (.error e, st)
    | .ok (p, st') => patchLoop upd id rest st' (some p)

/-- Embedding of the PATCH handler: run the update loop from a `null`
result; return the final result as JSON, or the `{error}` shape with
status 500 when an update threw. -/
def patchRoute {Store : Type}
    (upd : Store → String → String → FieldValue → Except String (Person × Store))
    (id : String) (body : List (String × FieldValue)) (st : Store) :
    PatchResponse × Store :=
  match patchLoop upd id body st none with
  | (.ok r, st') => (.json r, st')
  | (.error e, st') => (.jsonError e 500, st')

/-- One step of the claim-side sequential fold: keep a previous error,
otherwise apply the single-field update and remember the person it
returned. -/
def applyStep {Store : Type}
    (upd : Store → String → String → FieldValue → Except String (Person × Store))
    (id : String) (acc : Except String (Option Person) × Store)
    (fv : String × FieldValue) : Except String (Option Person) × Store :=
  match acc with
  | (.error e, s) => (.error e, s)
  | (.ok _, s) =>
    match upd s id fv.1 fv.2 with
    | .error e => (.error e, s)
    | .ok (p, s') => (.ok (some p), s')

/-- Modelled from the spec's wording "applies each field update sequentially
against the upstream store": a left fold over the body pairs threading the
store, remembering the person returned by the last applied update. -/
def applySeq {Store : Type}
    (upd : Store → String → String → FieldValue → Except String (Person × Store))
    (id : String) (body : List (String × FieldValue)) (st : Store) :
    Except String (Option Person) × Store :=
  body.foldl (applyStep upd id) (.ok none, st)

/-- The nine status labels the aggregator recognizes. -/
def recognizedStatuses : List String :=
  ["New", "Lead", "Scheduling Email Sent", "Call Scheduled", "Call Completed",
   "Onboarded", "Active", "Paused", "Closed"]

/-! ## Theorems -/

/-- The links the builder returns are exactly the raw links with the
zero-weight ones dropped. -/
theorem links_eq_filter (people : List Person) :
    (transformLiveDataToSankey people).links
      = (rawLinks people).filter (fun l => 0 < l.value) := rfl

/-- Each person falls in exactly one of the three closure buckets. -/
theorem closure_buckets_exactly_one (p : Person) :
    (isClosedAfterCall p).toNat + (isClosedAfterOnboarding p).toNat
      + (isClosedBeforeQualified p).toNat = 1 := by
  simp only [isClosedAfterCall, isClosedAfterOnboarding, isClosedBeforeQualified]
  cases lowerIncl (closeClassOf p) "after call" <;>
    cases lowerIncl (closeClassOf p) "after onboard" <;> rfl

/-- The three closure-bucket counts partition any list of people. -/
theorem countP_closure_partition (l : List Person) :
    l.countP isClosedAfterCall + l.countP isClosedAfterOnboarding
      + l.countP isClosedBeforeQualified = l.length := by
  induction l with
  | nil => rfl
  | cons p t ih =>
    have h := closure_buckets_exactly_one p
    simp only [List.countP_cons, List.length_cons]
    cases h1 : isClosedAfterCall p <;> cases h2 : isClosedAfterOnboarding p <;>
      cases h3 : isClosedBeforeQualified p <;> simp [h1, h2, h3] at h ⊢ <;> omega

/-- The truthiness guard of the tally never hides a `Closed` status. -/
theorem truthy_eq_closed (p : Person) :
    (truthyStatus p == some "Closed") = (p.Status == some "Closed") := by
  unfold truthyStatus
  cases hps : p.Status with
  | none => rfl
  | some s =>
    by_cases hs : s = ""
    · subst hs; decide
    · simp [hs]

/-- The tally at key `Closed` counts exactly the people the `closedPeople`
filter retains. -/
theorem statusCounts_closed_eq (people : List Person) :
    statusCounts people "Closed" = (closedPeopleOf people).length := by
  unfold statusCounts closedPeopleOf
  rw [← List.countP_eq_length_filter]
  have hfun : (fun p => truthyStatus p == some "Closed")
      = (fun p : Person => p.Status == some "Closed") :=
    funext fun p => truthy_eq_closed p
  rw [hfun]

/-- The derived before-qualification count is never negative. -/
theorem closedInitially_nonneg (people : List Person) :
    0 ≤ closedInitially people := by
  unfold closedInitially closedAfterCallCount closedAfterOnboardingCount
  have h := countP_closure_partition (closedPeopleOf people)
  rw [statusCounts_closed_eq]
  omega

/-- Every raw link weight is non-negative. -/
theorem rawLinks_nonneg (people : List Person) :
    ∀ x ∈ rawLinks people, 0 ≤ x.value := by
  intro x hx
  simp only [rawLinks, List.mem_cons, List.not_mem_nil, or_false] at hx
  rcases hx with h | h | h | h | h | h | h | h | h <;> subst h <;>
    first
      | exact Int.natCast_nonneg _
      | exact closedInitially_nonneg people

/-- Evaluation of `sumValues` on the empty list. -/
theorem sumValues_nil : sumValues [] = 0 := rfl

/-- Evaluation of `sumValues` on a cons cell. -/
theorem sumValues_cons (a : SankeyLink) (l : List SankeyLink) :
    sumValues (a :: l) = a.value + sumValues l := by
  simp [sumValues]

/-- Dropping the zero-weight links of a non-negative link list does not
change any filtered weight sum. -/
theorem sumValues_filter_of_pos (q : SankeyLink → Bool) :
    ∀ ls : List SankeyLink, (∀ x ∈ ls, 0 ≤ x.value) →
      sumValues ((ls.filter (fun l => 0 < l.value)).filter q)
        = sumValues (ls.filter q) := by
  intro ls
  induction ls with
  | nil => intro _; rfl
  | cons a t ih =>
    intro h
    have ha : 0 ≤ a.value := h a (List.mem_cons_self a t)
    have ht : ∀ x ∈ t, 0 ≤ x.value := fun x hx => h x (List.mem_cons_of_mem a hx)
    by_cases hpos : 0 < a.value
    · have hb := decide_eq_true hpos
      cases hq : q a <;>
        simp [List.filter_cons, hb, hq, sumValues_cons, ih ht, -List.filter_filter]
    · have hz : a.value = 0 := by omega
      have hb := decide_eq_false hpos
      cases hq : q a <;>
        simp [List.filter_cons, hb, hq, sumValues_cons, ih ht, hz, -List.filter_filter]

/-- C1: for an absent `people` argument and for an empty people sequence,
`transformEventsToSankey` fails with the explicit
`No data available from Airtable` error instead of returning an empty
graph. -/
theorem transformEventsToSankey_no_data (events : List FunnelEvent) :
    transformEventsToSankey events none
        = .error "No data available from Airtable"
    ∧ transformEventsToSankey events (some [])
        = .error "No data available from Airtable" :=
  ⟨rfl, rfl⟩

/-- C5: the flow graph depends only on the people argument; the events
argument never influences the result, and the function is deterministic. -/
theorem transformEventsToSankey_ignores_events (e1 e2 : List FunnelEvent)
    (people : Option (List Person)) :
    transformEventsToSankey e1 people = transformEventsToSankey e2 people := rfl

/-- C3: every currently-closed person lands in exactly one of the three
closure buckets (after-call, else after-onboarding, else
before-qualification), and the three bucket counts sum to the total closed
count. -/
theorem closed_buckets_partition (people : List Person) (h : people ≠ []) :
    (∀ p ∈ closedPeopleOf people,
      (isClosedAfterCall p).toNat + (isClosedAfterOnboarding p).toNat
        + (isClosedBeforeQualified p).toNat = 1)
    ∧ closedAfterCallCount people + closedAfterOnboardingCount people
        + (closedPeopleOf people).countP isClosedBeforeQualified
      = statusCounts people "Closed" := by
  refine ⟨fun p _ => closure_buckets_exactly_one p, ?_⟩
  rw [statusCounts_closed_eq]
  unfold closedAfterCallCount closedAfterOnboardingCount
  exact countP_closure_partition (closedPeopleOf people)

/-- Witness for C3 at a one-person closed list. -/
theorem closed_buckets_partition_witness :
    (([⟨"p1", "X", some "Closed", some "Withdrew — After Call", none⟩] : List Person) ≠ [])
    ∧ ((∀ p ∈ closedPeopleOf
          [⟨"p1", "X", some "Closed", some "Withdrew — After Call", none⟩],
        (isClosedAfterCall p).toNat + (isClosedAfterOnboarding p).toNat
          + (isClosedBeforeQualified p).toNat = 1)
      ∧ closedAfterCallCount
            [⟨"p1", "X", some "Closed", some "Withdrew — After Call", none⟩]
          + closedAfterOnboardingCount
            [⟨"p1", "X", some "Closed", some "Withdrew — After Call", none⟩]
          + (closedPeopleOf
              [⟨"p1", "X", some "Closed", some "Withdrew — After Call", none⟩]).countP
              isClosedBeforeQualified
        = statusCounts
            [⟨"p1", "X", some "Closed", some "Withdrew — After Call", none⟩] "Closed") :=
  ⟨by decide,
    closed_buckets_partition
      [⟨"p1", "X", some "Closed", some "Withdrew — After Call", none⟩] (by decide)⟩

/-- C4: every returned edge weight is strictly positive (zero-weight edges
are dropped), and the derived before-qualification closed count is never
negative. -/
theorem links_positive (people : List Person) (h : people ≠ []) :
    (∀ l ∈ (transformLiveDataToSankey people).links, 0 < l.value)
    ∧ 0 ≤ closedInitially people := by
  refine ⟨fun l hl => ?_, closedInitially_nonneg people⟩
  rw [links_eq_filter] at hl
  rw [List.mem_filter] at hl
  exact of_decide_eq_true hl.2

/-- C2: in the returned graph, the outgoing weight of the `Qualified` node is at
most its inbound weight (the single `Applications → Qualified` edge), and
the outgoing weight of the `Call Completed` node is at most its inbound weight (the
single `Qualified → Call Completed` edge). -/
theorem node_conservation (people : List Person) (h : people ≠ []) :
    outWeight (transformLiveDataToSankey people) "Qualified"
        ≤ inWeight (transformLiveDataToSankey people) "Qualified"
    ∧ outWeight (transformLiveDataToSankey people) "Call Completed"
        ≤ inWeight (transformLiveDataToSankey people) "Call Completed" := by
  have hnn := rawLinks_nonneg people
  refine ⟨?_, ?_⟩ <;>
    · unfold outWeight inWeight
      rw [links_eq_filter, sumValues_filter_of_pos _ _ hnn,
        sumValues_filter_of_pos _ _ hnn]
      simp [rawLinks, List.filter_cons, sumValues_cons, sumValues_nil,
        -List.filter_filter]
      omega

/-- Witness for C2 at a one-person list. -/
theorem node_conservation_witness :
    (([⟨"p1", "X", some "Lead", none, none⟩] : List Person) ≠ [])
    ∧ (outWeight (transformLiveDataToSankey [⟨"p1", "X", some "Lead", none, none⟩])
          "Qualified"
        ≤ inWeight (transformLiveDataToSankey [⟨"p1", "X", some "Lead", none, none⟩])
          "Qualified"
      ∧ outWeight (transformLiveDataToSankey [⟨"p1", "X", some "Lead", none, none⟩])
          "Call Completed"
        ≤ inWeight (transformLiveDataToSankey [⟨"p1", "X", some "Lead", none, none⟩])
          "Call Completed") :=
  ⟨by decide, node_conservation [⟨"p1", "X", some "Lead", none, none⟩] (by decide)⟩

/-- Witness for C4 at a one-person list. -/
theorem links_positive_witness :
    (([⟨"p1", "X", some "New", none, none⟩] : List Person) ≠ [])
    ∧ ((∀ l ∈ (transformLiveDataToSankey [⟨"p1", "X", some "New", none, none⟩]).links,
          0 < l.value)
      ∧ 0 ≤ closedInitially [⟨"p1", "X", some "New", none, none⟩]) :=
  ⟨by decide, links_positive [⟨"p1", "X", some "New", none, none⟩] (by decide)⟩

/-- C6: a refresh cycle in which either fetch fails (non-ok response or
upstream error body) reports failure and leaves every displayed value —
people, events, flow graph, last-updated — unchanged; a fully successful
cycle replaces them all together with the new snapshot and the new
timestamp. -/
theorem load_failure_keeps_state (pRes : FetchOutcome Person)
    (eRes : FetchOutcome FunnelEvent) (now : Int) (s : DashState) :
    ((∀ pd, pRes ≠ .payload pd) ∨ (∀ ed, eRes ≠ .payload ed) →
      (load pRes eRes now s).people = s.people
      ∧ (load pRes eRes now s).events = s.events
      ∧ (load pRes eRes now s).sankeyData = s.sankeyData
      ∧ (load pRes eRes now s).lastUpdated = s.lastUpdated
      ∧ (load pRes eRes now s).error.isSome = true)
    ∧ (∀ pd ed sk, pRes = .payload pd → eRes = .payload ed →
        transformEventsToSankey ed (some pd) = .ok sk →
        load pRes eRes now s = ⟨pd, ed, some sk, now, none, false⟩) := by
  constructor
  · intro hfail
    cases pRes with
    | httpFail => cases eRes <;> simp [load]
    | errorBody m => cases eRes <;> simp [load]
    | payload pd =>
      cases eRes with
      | httpFail => simp [load]
      | errorBody m => simp [load]
      | payload ed =>
        exfalso
        rcases hfail with hp | he
        · exact hp pd rfl
        · exact he ed rfl
  · intro pd ed sk hp he htr
    subst hp; subst he
    simp [load, htr]

/-- Witness for C6: a failing cycle at a concrete state, and a successful
cycle at a concrete one-person snapshot. -/
theorem load_failure_keeps_state_witness :
    ((load FetchOutcome.httpFail (FetchOutcome.payload ([] : List FunnelEvent)) 7
        ⟨[], [], none, 0, none, true⟩).people = []
      ∧ (load FetchOutcome.httpFail (FetchOutcome.payload ([] : List FunnelEvent)) 7
          ⟨[], [], none, 0, none, true⟩).events = []
      ∧ (load FetchOutcome.httpFail (FetchOutcome.payload ([] : List FunnelEvent)) 7
          ⟨[], [], none, 0, none, true⟩).sankeyData = none
      ∧ (load FetchOutcome.httpFail (FetchOutcome.payload ([] : List FunnelEvent)) 7
          ⟨[], [], none, 0, none, true⟩).lastUpdated = 0
      ∧ (load FetchOutcome.httpFail (FetchOutcome.payload ([] : List FunnelEvent)) 7
          ⟨[], [], none, 0, none, true⟩).error.isSome = true)
    ∧ load (FetchOutcome.payload [⟨"p1", "X", some "New", none, none⟩])
        (FetchOutcome.payload ([] : List FunnelEvent)) 7 ⟨[], [], none, 0, none, true⟩
      = ⟨[⟨"p1", "X", some "New", none, none⟩], [],
          some ⟨sankeyNodes, [⟨"Applications", "Unassessed", 1⟩]⟩, 7, none, false⟩ :=
  ⟨(load_failure_keeps_state FetchOutcome.httpFail
      (FetchOutcome.payload ([] : List FunnelEvent)) 7
      ⟨[], [], none, 0, none, true⟩).1
    (Or.inl fun pd hpd => FetchOutcome.noConfusion hpd),
   (load_failure_keeps_state (FetchOutcome.payload [⟨"p1", "X", some "New", none, none⟩])
      (FetchOutcome.payload ([] : List FunnelEvent)) 7
      ⟨[], [], none, 0, none, true⟩).2
    [⟨"p1", "X", some "New", none, none⟩] []
    ⟨sankeyNodes, [⟨"Applications", "Unassessed", 1⟩]⟩ rfl rfl rfl⟩

/-- C7 counterexample: one person created at the week start with status
`Active`.  `Active` is a status after the entry and unassessed states, so
the claim counts this person as weekly-qualified, but the code's
`weeklyQualified` does not (its status list omits `Active`, `Paused` and
`Closed`). -/
theorem weeklyQualified_omits_active :
    weeklyApplications [⟨"p1", "A", some "Active", none, some 0⟩] 0 = 1
    ∧ specWeeklyQualified [⟨"p1", "A", some "Active", none, some 0⟩] 0 = 1
    ∧ weeklyQualified [⟨"p1", "A", some "Active", none, some 0⟩] 0 = 0 := by
  refine ⟨rfl, rfl, rfl⟩

/-- C7 amended: `weeklyApplications` counts exactly the people whose
creation timestamp is present and on or after the week start, and
`weeklyQualified` counts exactly those of them whose status is one of Lead,
Scheduling Email Sent, Call Scheduled, Call Completed, Onboarded — the
post-entry statuses other than Active, Paused and Closed. -/
theorem weekly_metrics_exact (people : List Person) (weekStart : Int) :
    weeklyApplications people weekStart
      = people.countP (fun p =>
          match p.Created with
          | none => false
          | some c => decide (weekStart ≤ c))
    ∧ weeklyQualified people weekStart
      = people.countP (fun p =>
          decide (p.Status ∈ [some "Lead", some "Scheduling Email Sent",
            some "Call Scheduled", some "Call Completed", some "Onboarded"])
          && (match p.Created with
              | none => false
              | some c => decide (weekStart ≤ c))) := by
  constructor
  · unfold weeklyApplications thisWeekPeople
    rw [← List.countP_eq_length_filter]
  · unfold weeklyQualified thisWeekPeople
    rw [← List.countP_eq_length_filter, List.countP_filter]
    apply List.countP_congr
    intro p _
    cases hps : p.Status <;> simp [hps] <;> intro _ <;> tauto

/-- Outgoing weight of the Applications root: the three root edge weights,
zero-weight links notwithstanding. -/
theorem outWeight_app (people : List Person) :
    outWeight (transformLiveDataToSankey people) "Applications"
      = (statusCounts people "New" : Int)
        + ((statusCounts people "Lead" + statusCounts people "Scheduling Email Sent" +
            statusCounts people "Call Scheduled" + statusCounts people "Call Completed" +
            statusCounts people "Onboarded" + statusCounts people "Active" +
            statusCounts people "Paused" + closedAfterCallCount people +
            closedAfterOnboardingCount people : Nat) : Int)
        + closedInitially people := by
  unfold outWeight
  rw [links_eq_filter, sumValues_filter_of_pos _ _ (rawLinks_nonneg people)]
  simp [rawLinks, List.filter_cons, sumValues_cons, sumValues_nil, -List.filter_filter]
  omega

/-- No returned edge enters the synthetic Applications root. -/
theorem inWeight_app (people : List Person) :
    inWeight (transformLiveDataToSankey people) "Applications" = 0 := by
  unfold inWeight
  rw [links_eq_filter, sumValues_filter_of_pos _ _ (rawLinks_nonneg people)]
  rfl

/-- C8: the three guarded Dashboard percentages yield 0 whenever their
denominator is 0 (and, being total functions, never throw); the SankeyChart
qualification-rate annotation is only reached for a graph with a non-empty
link list, in which case its denominator — the laid-out Applications node
value — is strictly positive and the annotation is the finite
round(qualified / applications * 100); a zero denominator forces an empty
link list, which the chart never renders, so the zero-denominator case of
the annotation is unreachable. -/
theorem percentages_safe (people : List Person) :
    (people.length = 0 → rejectionPct people = 0)
    ∧ (dashStatusCount people "Lead" = 0 → leadsNotOnboardedPct people = 0)
    ∧ (∀ c : Nat, closureSharePct c 0 = 0)
    ∧ ((transformLiveDataToSankey people).links ≠ [] →
        0 < nodeValue (transformLiveDataToSankey people) "Applications"
        ∧ conversionRate (transformLiveDataToSankey people)
          = some (jsRound
              ((nodeValue (transformLiveDataToSankey people) "Qualified" : ℚ)
                / (nodeValue (transformLiveDataToSankey people) "Applications" : ℚ)
                * 100)))
    ∧ (nodeValue (transformLiveDataToSankey people) "Applications" = 0 →
        (transformLiveDataToSankey people).links = []) := by
  have hkey : (transformLiveDataToSankey people).links ≠ [] →
      0 < nodeValue (transformLiveDataToSankey people) "Applications" := by
    intro hne
    have hcin := closedInitially_nonneg people
    unfold nodeValue
    rw [inWeight_app, outWeight_app]
    by_contra hle
    push_neg at hle
    rw [max_le_iff] at hle
    obtain ⟨hle, -⟩ := hle
    have hNew : statusCounts people "New" = 0 := by omega
    have hLead : statusCounts people "Lead" = 0 := by omega
    have hSched : statusCounts people "Scheduling Email Sent" = 0 := by omega
    have hCS : statusCounts people "Call Scheduled" = 0 := by omega
    have hCC : statusCounts people "Call Completed" = 0 := by omega
    have hOnb : statusCounts people "Onboarded" = 0 := by omega
    have hAct : statusCounts people "Active" = 0 := by omega
    have hPaused : statusCounts people "Paused" = 0 := by omega
    have hac : closedAfterCallCount people = 0 := by omega
    have hao : closedAfterOnboardingCount people = 0 := by omega
    have hci : closedInitially people = 0 := by omega
    apply hne
    rw [links_eq_filter]
    simp [rawLinks, hNew, hLead, hSched, hCS, hCC, hOnb, hAct, hPaused, hac, hao,
      hci, List.filter_cons, -List.filter_filter]
  refine ⟨?_, ?_, ?_, ?_, ?_⟩
  · intro h0
    unfold rejectionPct
    rw [if_neg (by omega)]
  · intro h0
    unfold leadsNotOnboardedPct
    rw [if_neg (by omega)]
  · intro c
    unfold closureSharePct
    rw [if_neg (by omega)]
  · intro hne
    have hv := hkey hne
    refine ⟨hv, ?_⟩
    unfold conversionRate
    rw [if_neg (by omega)]
  · intro hv0
    by_contra hne
    have := hkey hne
    omega

/-- Witness for C8: the guarded percentages at empty inputs, and a positive
annotation denominator at a concrete one-person snapshot. -/
theorem percentages_safe_witness :
    rejectionPct [] = 0
    ∧ leadsNotOnboardedPct [] = 0
    ∧ closureSharePct 5 0 = 0
    ∧ 0 < nodeValue
        (transformLiveDataToSankey [⟨"p1", "X", some "New", none, none⟩])
        "Applications" :=
  ⟨(percentages_safe []).1 rfl,
   (percentages_safe []).2.1 rfl,
   (percentages_safe []).2.2.1 5,
   ((percentages_safe [⟨"p1", "X", some "New", none, none⟩]).2.2.2.1 (by decide)).1⟩

/-- An error accumulator is absorbing for the sequential fold. -/
theorem foldl_applyStep_error {Store : Type}
    (upd : Store → String → String → FieldValue → Except String (Person × Store))
    (id : String) :
    ∀ (body : List (String × FieldValue)) (e : String) (s : Store),
      body.foldl (applyStep upd id) (.error e, s) = (.error e, s) := by
  intro body
  induction body with
  | nil => intro e s; rfl
  | cons fv rest ih => intro e s; simp [List.foldl_cons, applyStep, ih]

/-- The route's update loop computes exactly the sequential fold started
from its accumulated result. -/
theorem patchLoop_eq_applySeq {Store : Type}
    (upd : Store → String → String → FieldValue → Except String (Person × Store))
    (id : String) :
    ∀ (body : List (String × FieldValue)) (st : Store) (r : Option Person),
      patchLoop upd id body st r = body.foldl (applyStep upd id) (.ok r, st) := by
  intro body
  induction body with
  | nil => intro st r; rfl
  | cons fv rest ih =>
    intro st r
    obtain ⟨f, v⟩ := fv
    simp only [patchLoop, List.foldl_cons, applyStep]
    cases hupd : upd st id f v with
    | error e => simp [foldl_applyStep_error]
    | ok ps =>
      obtain ⟨p, st'⟩ := ps
      simp [ih]

/-- Once some update has been applied, a successful fold result is never
null. -/
theorem foldl_applyStep_some {Store : Type}
    (upd : Store → String → String → FieldValue → Except String (Person × Store))
    (id : String) :
    ∀ (rest : List (String × FieldValue)) (p : Person) (s : Store)
      (r : Option Person) (st' : Store),
      rest.foldl (applyStep upd id) (.ok (some p), s) = (.ok r, st') →
        r.isSome = true := by
  intro rest
  induction rest with
  | nil =>
    intro p s r st' h
    simp only [List.foldl_nil, Prod.mk.injEq, Except.ok.injEq] at h
    rw [← h.1]
    rfl
  | cons fv rest ih =>
    intro p s r st' h
    rw [List.foldl_cons] at h
    revert h
    simp only [applyStep]
    cases hupd : upd s id fv.1 fv.2 with
    | error e =>
      intro h
      rw [foldl_applyStep_error] at h
      simp at h
    | ok ps =>
      obtain ⟨p', s'⟩ := ps
      intro h
      exact ih p' s' r st' h

/-- C9: the PATCH handler applies the body's field→value pairs one
single-field update at a time, in body order, against the upstream store; it
responds with the JSON of the result of the final update (never null for a
non-empty body) and with the error shape at status 500 when an update
throws. -/
theorem patchRoute_applies_updates {Store : Type}
    (upd : Store → String → String → FieldValue → Except String (Person × Store))
    (id : String) (body : List (String × FieldValue)) (st : Store) :
    patchRoute upd id body st
      = (match applySeq upd id body st with
         | (.ok r, st') => (PatchResponse.json r, st')
         | (.error e, st') => (PatchResponse.jsonError e 500, st'))
    ∧ (body ≠ [] → ∀ (r : Option Person) (st' : Store),
        applySeq upd id body st = (.ok r, st') → r.isSome = true) := by
  constructor
  · unfold patchRoute applySeq
    rw [patchLoop_eq_applySeq]
  · intro hne r st' h
    unfold applySeq at h
    cases body with
    | nil => exact absurd rfl hne
    | cons fv rest =>
      rw [List.foldl_cons] at h
      revert h
      simp only [applyStep]
      cases hupd : upd st id fv.1 fv.2 with
      | error e =>
        intro h
        rw [foldl_applyStep_error] at h
        simp at h
      | ok ps =>
        obtain ⟨p', s'⟩ := ps
        intro h
        exact foldl_applyStep_some upd id rest p' s' r st' h

/-- Witness for C9 with a one-pair body over a counter store whose update
always succeeds. -/
theorem patchRoute_applies_updates_witness :
    (patchRoute
        (fun (s : Nat) (i : String) (_f : String) (_v : FieldValue) =>
          (Except.ok (⟨i, "", none, none, none⟩, s + 1) : Except String (Person × Nat)))
        "rec1" [("Status", FieldValue.str "Lead")] 0
      = (match applySeq
            (fun (s : Nat) (i : String) (_f : String) (_v : FieldValue) =>
              (Except.ok (⟨i, "", none, none, none⟩, s + 1) : Except String (Person × Nat)))
            "rec1" [("Status", FieldValue.str "Lead")] 0 with
         | (.ok r, st') => (PatchResponse.json r, st')
         | (.error e, st') => (PatchResponse.jsonError e 500, st')))
    ∧ (some (⟨"rec1", "", none, none, none⟩ : Person)).isSome = true :=
  ⟨(patchRoute_applies_updates
      (fun (s : Nat) (i : String) (_f : String) (_v : FieldValue) =>
        (Except.ok (⟨i, "", none, none, none⟩, s + 1) : Except String (Person × Nat)))
      "rec1" [("Status", FieldValue.str "Lead")] 0).1,
   (patchRoute_applies_updates
      (fun (s : Nat) (i : String) (_f : String) (_v : FieldValue) =>
        (Except.ok (⟨i, "", none, none, none⟩, s + 1) : Except String (Person × Nat)))
      "rec1" [("Status", FieldValue.str "Lead")] 0).2
    (by simp) (some ⟨"rec1", "", none, none, none⟩) 1 rfl⟩

/-- A person with an absent or unrecognized status never matches the tally
predicate at a recognized key. -/
theorem truthy_beq_of_unrec (q : Person)
    (hq : ∀ s, q.Status = some s → s ∉ recognizedStatuses)
    (s : String) (hs : s ∈ recognizedStatuses) :
    (truthyStatus q == some s) = false := by
  unfold truthyStatus
  cases hqs : q.Status with
  | none => rfl
  | some t =>
    by_cases ht : t = ""
    · simp [ht]
    · have hts : t ≠ s := fun hE => hq t hqs (hE ▸ hs)
      simp [ht, hts]

/-- Appending a person with an absent or unrecognized status does not change
any recognized tally entry. -/
theorem statusCounts_append_unrec (ps : List Person) (q : Person)
    (hq : ∀ s, q.Status = some s → s ∉ recognizedStatuses)
    (s : String) (hs : s ∈ recognizedStatuses) :
    statusCounts (ps ++ [q]) s = statusCounts ps s := by
  unfold statusCounts
  rw [List.countP_append]
  simp [List.countP_cons, truthy_beq_of_unrec q hq s hs]

/-- Appending a person with an absent or unrecognized status does not change
the closed-people filter. -/
theorem closedPeople_append_unrec (ps : List Person) (q : Person)
    (hq : ∀ s, q.Status = some s → s ∉ recognizedStatuses) :
    closedPeopleOf (ps ++ [q]) = closedPeopleOf ps := by
  have hcb : (q.Status == some "Closed") = false := by
    cases hqs : q.Status with
    | none => rfl
    | some t =>
      have hts : t ≠ "Closed" := fun hE => hq t hqs (by rw [hE]; decide)
      simp [hts]
  unfold closedPeopleOf
  rw [List.filter_append]
  simp [List.filter_cons, hcb]

/-- C10: appending a person whose status is absent or not one of the nine
recognized funnel statuses to a non-empty people sequence leaves the
returned flow graph unchanged — such a person enters only the raw tally and
no named aggregate. -/
theorem append_unrecognized_no_effect (ps : List Person) (h : ps ≠ [])
    (q : Person) (hq : ∀ s, q.Status = some s → s ∉ recognizedStatuses)
    (events : List FunnelEvent) :
    transformEventsToSankey events (some (ps ++ [q]))
      = transformEventsToSankey events (some ps) := by
  have h1 := statusCounts_append_unrec ps q hq "New" (by decide)
  have h2 := statusCounts_append_unrec ps q hq "Lead" (by decide)
  have h3 := statusCounts_append_unrec ps q hq "Scheduling Email Sent" (by decide)
  have h4 := statusCounts_append_unrec ps q hq "Call Scheduled" (by decide)
  have h5 := statusCounts_append_unrec ps q hq "Call Completed" (by decide)
  have h6 := statusCounts_append_unrec ps q hq "Onboarded" (by decide)
  have h7 := statusCounts_append_unrec ps q hq "Active" (by decide)
  have h8 := statusCounts_append_unrec ps q hq "Paused" (by decide)
  have hcp := closedPeople_append_unrec ps q hq
  have hac : closedAfterCallCount (ps ++ [q]) = closedAfterCallCount ps := by
    unfold closedAfterCallCount
    rw [hcp]
  have hao : closedAfterOnboardingCount (ps ++ [q]) = closedAfterOnboardingCount ps := by
    unfold closedAfterOnboardingCount
    rw [hcp]
  have hci : closedInitially (ps ++ [q]) = closedInitially ps := by
    unfold closedInitially
    rw [statusCounts_append_unrec ps q hq "Closed" (by decide), hac, hao]
  have hlive : transformLiveDataToSankey (ps ++ [q]) = transformLiveDataToSankey ps := by
    unfold transformLiveDataToSankey
    rw [h1, h2, h3, h4, h5, h6, h7, h8, hac, hao, hci]
  obtain ⟨a, t, rfl⟩ := List.exists_cons_of_ne_nil h
  unfold transformEventsToSankey
  simp only [List.cons_append] at hlive
  simp [hlive]

/-- Witness for C10: appending a person with the unrecognized status
`Unknown` to a one-person list. -/
theorem append_unrecognized_no_effect_witness :
    transformEventsToSankey []
        (some ([⟨"p1", "X", some "New", none, none⟩]
          ++ [⟨"p2", "Y", some "Unknown", none, none⟩]))
      = transformEventsToSankey [] (some [⟨"p1", "X", some "New", none, none⟩]) :=
  append_unrecognized_no_effect [⟨"p1", "X", some "New", none, none⟩] (by decide)
    ⟨"p2", "Y", some "Unknown", none, none⟩
    (by intro s hs; injection hs with hE; subst hE; decide) []

end MetrDash
